import Mathlib

/-!
Shallow embedding of `src/primitives.py` (pypot safety primitives) and
verification of its specification claims.

The source defines three periodic safety loops over a robot's motors:
`LimitOverLoad`, `LimitSpeed` and `LimitTemperature`.  Each `update`
computes a verdict dict (motor name → offending value) over the current
snapshot of `robot.motors`, and if the dict is non-empty prints a report
and sets `m.compliant = True` on every motor of the robot.

Python floats are modelled as exact rationals (`ℚ`); a snapshot of
`robot.motors` is a `List Motor`; a Python dict built by insertion is an
association list in insertion order.  Exceptions are modelled with
`Except String`.
-/

set_option autoImplicit false

/-- One motor's telemetry reading, as the loops consume it: the attributes
`name`, `present_load`, `present_position`, `present_temperature`, `model`
and `compliant` of a pypot motor object. -/
structure Motor where
  name : String
  present_load : ℚ
  present_position : ℚ
  present_temperature : ℚ
  model : String
  compliant : Bool
deriving DecidableEq, Repr

/-- `LOAD_LIMIT = 60` (src line 9). -/
def LOAD_LIMIT : ℚ := 60

/-- `TEMPERATURE_LIMIT = 60` (src line 11). -/
def TEMPERATURE_LIMIT : ℚ := 60

/-- The release-all block shared by all three loops (src lines 38-39,
84-85, 118-119): `for m in self._robot.motors: m.compliant = True`. -/
def releaseAll (motors : List Motor) : List Motor :=
  motors.map fun m => { m with compliant := true }

/-- Observable outcome of one `update` call: the verdict dict produced by
the scan, the motors' state afterwards, how many times the release-all
block ran and how many report lines were printed. -/
structure TickResult where
  verdict : List (String × ℚ)
  motors : List Motor
  releases : Nat
  reports : Nat
deriving DecidableEq, Repr

/-- The tail of every `update` (src lines 36-39, 82-85, 116-119): if the
verdict dict is truthy (non-empty), print one report and run the
release-all block once; otherwise do nothing. -/
def applyVerdict (motors : List Motor) (v : List (String × ℚ)) : TickResult :=
  match v with
  | [] => { verdict := v, motors := motors, releases := 0, reports := 0 }
  | _ :: _ => { verdict := v, motors := releaseAll motors, releases := 1, reports := 1 }

namespace LimitOverLoad

/-- The scan of `LimitOverLoad.update` (src lines 32-34): for each motor,
if `abs(m.present_load) > LOAD_LIMIT and not m.compliant`, insert
`name ↦ present_load` into the verdict dict. -/
def verdict (motors : List Motor) : List (String × ℚ) :=
  motors.filterMap fun m =>
    if |m.present_load| > LOAD_LIMIT ∧ m.compliant = false then
      some (m.name, m.present_load)
    else none

/-- `LimitOverLoad.update` (src lines 28-39). -/
def update (motors : List Motor) : TickResult :=
  applyVerdict motors (verdict motors)

end LimitOverLoad

namespace LimitTemperature

/-- The scan of `LimitTemperature.update` (src lines 112-114): for each
motor, if `m.present_temperature > TEMPERATURE_LIMIT`, insert
`name ↦ present_temperature` into the verdict dict. -/
def verdict (motors : List Motor) : List (String × ℚ) :=
  motors.filterMap fun m =>
    if m.present_temperature > TEMPERATURE_LIMIT then
      some (m.name, m.present_temperature)
    else none

/-- `LimitTemperature.update` (src lines 108-119). -/
def update (motors : List Motor) : TickResult :=
  applyVerdict motors (verdict motors)

end LimitTemperature

namespace LimitSpeed

/-- The model dispatch of `LimitSpeed.update` (src lines 70-75):
`MX-28`/`MX-64` → resolution 0.088 degree, `AX-12` → 0.29 degree, any
other model → `raise ValueError("unknown motor model.")`. -/
def resolutionOf (model : String) : Except String ℚ :=
  if model = "MX-28" ∨ model = "MX-64" then .ok (88/1000)
  else if model = "AX-12" then .ok (29/100)
  else .error "unknown motor model."

/-- `LimitSpeed.setup` (src lines 60-63): seed `self.prev_position` with
`name ↦ present_position` for every motor of the first snapshot (the
source stores the singleton list `[m.present_position]` and always reads
index 0, so we store the position itself). -/
def setup (motors : List Motor) : List (String × ℚ) :=
  motors.map fun m => (m.name, m.present_position)

/-- The per-motor speed computation of `LimitSpeed.update` (src lines
70-78): look up the resolution (raising on an unknown model), then
`speed = (m.present_position - self.prev_position[m.name][0]) * resolution
/ self._freq`, the degrees-per-second value that line 78 then feeds to
`math.radians`.  A name absent from `prev_position` raises a `KeyError`.
We return the degree value; the radian value the source stores is this
value times `π / 180`. -/
def speedOf (freq : ℚ) (prev : List (String × ℚ)) (m : Motor) : Except String ℚ := do
  let res ← resolutionOf m.model
  match List.lookup m.name prev with
  | none => .error ("KeyError: " ++ m.name)
  | some p => .ok ((m.present_position - p) * res / freq)

/-- The trip test of src line 79, `abs(speed) > SPEED_LIMIT`, expressed on
the degrees-per-second value `s`: the source compares
`abs(math.radians(s)) > 4*math.pi`, i.e. `|s| * π / 180 > 4 * π`, which
(π being positive) holds iff `|s| > 720`; `overspeedTrips_iff_real` below
proves this equivalence against the literal real-number form. -/
def overspeedTrips (s : ℚ) : Prop := |s| > 720

instance overspeedTrips.decidable : DecidablePred overspeedTrips :=
  fun s => decidable_of_iff (|s| > 720) Iff.rfl

/-- The scan of `LimitSpeed.update` (src lines 67-80): iterate over the
motors in order, computing each motor's speed (the first failure aborts
the whole scan, discarding every entry inserted so far) and inserting
`name ↦ speed` into the verdict dict when the trip test holds. -/
def evalMotors (freq : ℚ) (prev : List (String × ℚ)) : List Motor → Except String (List (String × ℚ))
  | [] => .ok []
  | m :: ms => do
      let s ← speedOf freq prev m
      let rest ← evalMotors freq prev ms
      if overspeedTrips s then .ok ((m.name, s) :: rest) else .ok rest

/-- `LimitSpeed.update` (src lines 65-87): run the scan; if it raises, the
exception propagates before the release step, otherwise apply the verdict
as in the other loops.  Verdict values are in degrees per second (see
`speedOf`). -/
def update (freq : ℚ) (prev : List (String × ℚ)) (motors : List Motor) : Except String TickResult := do
  let v ← evalMotors freq prev motors
  .ok (applyVerdict motors v)

/-- The motors' state after one `update` call: on success the result's
motors, on an exception the snapshot unchanged — the only assignments to
motor state in the method body (src lines 84-85) come after every point
that can raise. -/
def tickMotors (freq : ℚ) (prev : List (String × ℚ)) (motors : List Motor) : List Motor :=
  match update freq prev motors with
  | .ok r => r.motors
  | .error _ => motors

/-- The cross-cycle state a `LimitSpeed` instance owns: `self._freq` and
`self.prev_position` (src lines 57-58). -/
structure SpeedState where
  freq : ℚ
  prev_position : List (String × ℚ)
deriving DecidableEq, Repr

/-- One full tick of the `LimitSpeed` primitive as a state transformer:
the method body of `update` (src lines 65-87) contains no assignment to
`self.prev_position` (its only write is in `setup`, src line 63), so the
state component comes back unchanged. -/
def step (st : SpeedState) (motors : List Motor) : Except String TickResult × SpeedState :=
  (update st.freq st.prev_position motors, st)

end LimitSpeed

/-- The per-motor fields other than `compliant`: no `update` of any loop
writes anything but the `compliant` flag, which this projection erases. -/
def chassis (m : Motor) : String × ℚ × ℚ × ℚ × String :=
  (m.name, m.present_load, m.present_position, m.present_temperature, m.model)

/-! ### Helper lemmas -/

theorem mem_verdict_filterMap {cond : Motor → Prop} [DecidablePred cond] {val : Motor → ℚ}
    {motors : List Motor} {p : String × ℚ} :
    p ∈ motors.filterMap (fun m => if cond m then some (m.name, val m) else none) ↔
      ∃ m ∈ motors, cond m ∧ p = (m.name, val m) := by
  simp only [List.mem_filterMap]
  constructor
  · rintro ⟨m, hm, hf⟩
    by_cases h : cond m
    · simp [h] at hf
      exact ⟨m, hm, h, hf.symm⟩
    · simp [h] at hf
  · rintro ⟨m, hm, hc, rfl⟩
    exact ⟨m, hm, by simp [hc]⟩

theorem name_inj {motors : List Motor} (hnd : (motors.map Motor.name).Nodup)
    {m m' : Motor} (hm : m ∈ motors) (hm' : m' ∈ motors) (h : m.name = m'.name) : m = m' :=
  List.inj_on_of_nodup_map hnd hm hm' h

/-- Per-motor characterisation of a verdict dict built by one of the scan
loops, provided motor names are unique in the snapshot (as the spec's data
model stipulates). -/
theorem pair_mem_verdict_iff (cond : Motor → Prop) [DecidablePred cond] (val : Motor → ℚ)
    {motors : List Motor} {m : Motor}
    (hnd : (motors.map Motor.name).Nodup) (hm : m ∈ motors) :
    (m.name, val m) ∈ motors.filterMap (fun m' => if cond m' then some (m'.name, val m') else none) ↔
      cond m := by
  rw [mem_verdict_filterMap]
  constructor
  · rintro ⟨m', hm', hc', heq⟩
    have : m = m' := name_inj hnd hm hm' (congrArg Prod.fst heq)
    exact this ▸ hc'
  · intro hc
    exact ⟨m, hm, hc, rfl⟩

theorem overspeedTrips_iff_real (s : ℚ) :
    LimitSpeed.overspeedTrips s ↔ |(s : ℝ) * Real.pi / 180| > 4 * Real.pi := by
  have hpos : (0:ℝ) < Real.pi / 180 := by positivity
  have habs : |(s : ℝ) * Real.pi / 180| = |(s:ℝ)| * (Real.pi / 180) := by
    rw [abs_div, abs_mul, abs_of_pos Real.pi_pos]
    rw [show |(180:ℝ)| = 180 by norm_num, mul_div_assoc]
  rw [LimitSpeed.overspeedTrips, gt_iff_lt, gt_iff_lt, habs,
    show (4:ℝ) * Real.pi = 720 * (Real.pi / 180) by ring,
    mul_lt_mul_right hpos]
  constructor
  · intro h; exact_mod_cast h
  · intro h; exact_mod_cast h

/-! ### Claim C2 -/

/-- Claim C2: for every motor in the snapshot (motor names being unique),
the overload verdict contains the motor, mapped to its load value, iff its
compliant flag is false and `abs(load) > LOAD_LIMIT`; in particular an
already-compliant motor is never in the overload verdict whatever its
load, and a load whose absolute value exactly equals `LOAD_LIMIT` does not
trip. -/
theorem c2_overload_verdict_iff (motors : List Motor) (m : Motor)
    (hnd : (motors.map Motor.name).Nodup) (hm : m ∈ motors) :
    ((m.name, m.present_load) ∈ LimitOverLoad.verdict motors ↔
      m.compliant = false ∧ |m.present_load| > LOAD_LIMIT)
    ∧ (m.compliant = true → (m.name, m.present_load) ∉ LimitOverLoad.verdict motors)
    ∧ (|m.present_load| = LOAD_LIMIT → (m.name, m.present_load) ∉ LimitOverLoad.verdict motors) := by
  have hiff := pair_mem_verdict_iff
    (fun m' => |m'.present_load| > LOAD_LIMIT ∧ m'.compliant = false)
    Motor.present_load hnd hm
  refine ⟨?_, ?_, ?_⟩
  · rw [LimitOverLoad.verdict, hiff]
    exact and_comm
  · intro hc hmem
    rw [LimitOverLoad.verdict, hiff] at hmem
    simp [hc] at hmem
  · intro hb hmem
    rw [LimitOverLoad.verdict, hiff] at hmem
    exact absurd hmem.1 (by simp [hb])

/-- Witness for C2 at a concrete snapshot: the spec's scenario motor
`"m1"` with load 75, not compliant, `LOAD_LIMIT = 60`. -/
theorem c2_overload_verdict_iff_witness :
    ((("m1", (75:ℚ)) ∈ LimitOverLoad.verdict [⟨"m1", 75, 0, 0, "MX-28", false⟩] ↔
      (false = false) ∧ |(75:ℚ)| > LOAD_LIMIT)
    ∧ ((false = true) → ("m1", (75:ℚ)) ∉ LimitOverLoad.verdict [⟨"m1", 75, 0, 0, "MX-28", false⟩])
    ∧ (|(75:ℚ)| = LOAD_LIMIT → ("m1", (75:ℚ)) ∉ LimitOverLoad.verdict [⟨"m1", 75, 0, 0, "MX-28", false⟩])) :=
  c2_overload_verdict_iff [⟨"m1", 75, 0, 0, "MX-28", false⟩] ⟨"m1", 75, 0, 0, "MX-28", false⟩
    (by decide) (by decide)

/-! ### Claim C3 -/

/-- Claim C3: for every motor in the snapshot (motor names being unique),
the overheat verdict contains the motor iff `temperature >
TEMPERATURE_LIMIT`, a strict comparison with no absolute value: a
temperature exactly equal to the limit does not trip, and a temperature
below `-TEMPERATURE_LIMIT` (large in absolute value) does not trip either
— only the upper bound is checked. -/
theorem c3_overheat_verdict_iff (motors : List Motor) (m : Motor)
    (hnd : (motors.map Motor.name).Nodup) (hm : m ∈ motors) :
    ((m.name, m.present_temperature) ∈ LimitTemperature.verdict motors ↔
      m.present_temperature > TEMPERATURE_LIMIT)
    ∧ (m.present_temperature = TEMPERATURE_LIMIT →
        (m.name, m.present_temperature) ∉ LimitTemperature.verdict motors)
    ∧ (m.present_temperature < -TEMPERATURE_LIMIT →
        (m.name, m.present_temperature) ∉ LimitTemperature.verdict motors) := by
  have hiff := pair_mem_verdict_iff
    (fun m' => m'.present_temperature > TEMPERATURE_LIMIT)
    Motor.present_temperature hnd hm
  refine ⟨?_, ?_, ?_⟩
  · rw [LimitTemperature.verdict, hiff]
  · intro hb hmem
    rw [LimitTemperature.verdict, hiff] at hmem
    simp [hb] at hmem
  · intro hb hmem
    rw [LimitTemperature.verdict, hiff] at hmem
    have : m.present_temperature ≤ TEMPERATURE_LIMIT := by
      have h0 : (0:ℚ) ≤ TEMPERATURE_LIMIT := by norm_num [TEMPERATURE_LIMIT]
      linarith
    exact absurd hmem (not_lt.mpr this)

/-- Witness for C3 at a concrete snapshot: a motor at 61 °C with
`TEMPERATURE_LIMIT = 60`. -/
theorem c3_overheat_verdict_iff_witness :
    ((("t1", (61:ℚ)) ∈ LimitTemperature.verdict [⟨"t1", 0, 0, 61, "MX-28", false⟩] ↔
      (61:ℚ) > TEMPERATURE_LIMIT)
    ∧ ((61:ℚ) = TEMPERATURE_LIMIT →
        ("t1", (61:ℚ)) ∉ LimitTemperature.verdict [⟨"t1", 0, 0, 61, "MX-28", false⟩])
    ∧ ((61:ℚ) < -TEMPERATURE_LIMIT →
        ("t1", (61:ℚ)) ∉ LimitTemperature.verdict [⟨"t1", 0, 0, 61, "MX-28", false⟩])) :=
  c3_overheat_verdict_iff [⟨"t1", 0, 0, 61, "MX-28", false⟩] ⟨"t1", 0, 0, 61, "MX-28", false⟩
    (by decide) (by decide)

/-! ### Helper lemmas for the speed loop and the shared verdict tail -/

theorem exceptBind_ok {α β : Type} (a : α) (f : α → Except String β) :
    Bind.bind (Except.ok a) f = f a := rfl

theorem exceptBind_error {α β : Type} (e : String) (f : α → Except String β) :
    Bind.bind (Except.error e : Except String α) f = Except.error e := rfl

theorem applyVerdict_nil (motors : List Motor) :
    applyVerdict motors [] = ⟨[], motors, 0, 0⟩ := rfl

theorem applyVerdict_nonempty (motors : List Motor) {v : List (String × ℚ)} (h : v ≠ []) :
    applyVerdict motors v = ⟨v, releaseAll motors, 1, 1⟩ := by
  cases v with
  | nil => exact absurd rfl h
  | cons p v' => rfl

theorem applyVerdict_verdict (motors : List Motor) (v : List (String × ℚ)) :
    (applyVerdict motors v).verdict = v := by
  cases v <;> rfl

theorem releaseAll_compliant (motors : List Motor) :
    ∀ m ∈ releaseAll motors, m.compliant = true := by
  simp [releaseAll]

theorem releaseAll_chassis (motors : List Motor) :
    (releaseAll motors).map chassis = motors.map chassis := by
  induction motors with
  | nil => rfl
  | cons m ms ih =>
    simp only [releaseAll, List.map_cons] at ih ⊢
    rw [ih]
    rfl

theorem applyVerdict_chassis (motors : List Motor) (v : List (String × ℚ)) :
    (applyVerdict motors v).motors.map chassis = motors.map chassis := by
  cases v with
  | nil => rfl
  | cons p v' => exact releaseAll_chassis motors

namespace LimitSpeed

theorem speedOf_eq_ok {freq p res : ℚ} {prev : List (String × ℚ)} {m : Motor}
    (hres : resolutionOf m.model = .ok res)
    (hp : List.lookup m.name prev = some p) :
    speedOf freq prev m = .ok ((m.present_position - p) * res / freq) := by
  rw [speedOf, hres, exceptBind_ok, hp]

theorem speedOf_error_of_resolution {freq : ℚ} {prev : List (String × ℚ)} {m : Motor} {e : String}
    (hres : resolutionOf m.model = .error e) :
    speedOf freq prev m = .error e := by
  rw [speedOf, hres, exceptBind_error]

theorem resolutionOf_ok_of_speedOf {freq : ℚ} {prev : List (String × ℚ)} {m : Motor} {s : ℚ}
    (h : speedOf freq prev m = .ok s) :
    ∃ res, resolutionOf m.model = .ok res := by
  cases hr : resolutionOf m.model with
  | error e => rw [speedOf_error_of_resolution hr] at h; exact absurd h (by simp)
  | ok res => exact ⟨res, rfl⟩

theorem evalMotors_cons (freq : ℚ) (prev : List (String × ℚ)) (m : Motor) (ms : List Motor) :
    evalMotors freq prev (m :: ms) =
      Bind.bind (speedOf freq prev m) (fun s =>
        Bind.bind (evalMotors freq prev ms) (fun rest =>
          if overspeedTrips s then .ok ((m.name, s) :: rest) else .ok rest)) := rfl

theorem evalMotors_error_cons {freq : ℚ} {prev : List (String × ℚ)} {m : Motor}
    {ms : List Motor} {e : String} (hs : speedOf freq prev m = .error e) :
    evalMotors freq prev (m :: ms) = .error e := by
  rw [evalMotors_cons, hs, exceptBind_error]

/-- Entries of a successful speed scan: exactly the (name, speed) pairs of
the motors whose computed speed trips. -/
theorem evalMotors_ok_mem {freq : ℚ} {prev : List (String × ℚ)} {motors : List Motor}
    {v : List (String × ℚ)} (h : evalMotors freq prev motors = .ok v) (p : String × ℚ) :
    p ∈ v ↔ ∃ m ∈ motors, p.1 = m.name ∧ speedOf freq prev m = .ok p.2 ∧ overspeedTrips p.2 := by
  induction motors generalizing v with
  | nil =>
    rw [evalMotors] at h
    injection h with h
    subst h
    simp
  | cons m0 ms ih =>
    rw [evalMotors_cons] at h
    cases hs : speedOf freq prev m0 with
    | error e => rw [hs, exceptBind_error] at h; exact absurd h (by simp)
    | ok s =>
      rw [hs, exceptBind_ok] at h
      cases hr : evalMotors freq prev ms with
      | error e => rw [hr, exceptBind_error] at h; exact absurd h (by simp)
      | ok rest =>
        rw [hr, exceptBind_ok] at h
        by_cases ht : overspeedTrips s
        · rw [if_pos ht] at h
          injection h with h
          subst h
          rw [List.mem_cons, ih hr]
          constructor
          · rintro (rfl | ⟨m, hm, h1, h2, h3⟩)
            · exact ⟨m0, List.mem_cons_self m0 ms, rfl, hs, ht⟩
            · exact ⟨m, List.mem_cons_of_mem m0 hm, h1, h2, h3⟩
          · rintro ⟨m, hm, h1, h2, h3⟩
            rcases List.mem_cons.mp hm with rfl | hm'
            · left
              rw [hs] at h2
              injection h2 with h2
              obtain ⟨p1, p2⟩ := p
              simp only at h1 h2
              rw [h1, h2]
            · right; exact ⟨m, hm', h1, h2, h3⟩
        · rw [if_neg ht] at h
          injection h with h
          subst h
          rw [ih hr]
          constructor
          · rintro ⟨m, hm, h1, h2, h3⟩
            exact ⟨m, List.mem_cons_of_mem m0 hm, h1, h2, h3⟩
          · rintro ⟨m, hm, h1, h2, h3⟩
            rcases List.mem_cons.mp hm with rfl | hm'
            · rw [hs] at h2
              injection h2 with h2
              rw [← h2] at h3
              exact absurd h3 ht
            · exact ⟨m, hm', h1, h2, h3⟩

/-- An unknown motor model anywhere in the snapshot makes the whole scan
raise. -/
theorem evalMotors_error_of_unknown {freq : ℚ} {prev : List (String × ℚ)} {motors : List Motor}
    (h : ∃ m ∈ motors, ∃ e, resolutionOf m.model = .error e) :
    ∃ e, evalMotors freq prev motors = .error e := by
  induction motors with
  | nil => simp at h
  | cons m0 ms ih =>
    cases hs : speedOf freq prev m0 with
    | error e => exact ⟨e, evalMotors_error_cons hs⟩
    | ok s =>
      obtain ⟨m, hm, e, he⟩ := h
      rcases List.mem_cons.mp hm with rfl | hm'
      · have herr : speedOf freq prev m = .error e := speedOf_error_of_resolution he
        rw [herr] at hs
        exact absurd hs (by simp)
      · obtain ⟨e', he'⟩ := ih ⟨m, hm', e, he⟩
        refine ⟨e', ?_⟩
        rw [evalMotors_cons, hs, exceptBind_ok, he', exceptBind_error]

/-- A scan over a snapshot whose prefix evaluates cleanly but whose suffix
raises, raises with the suffix's exception: every verdict entry collected
over the prefix is discarded. -/
theorem evalMotors_append_error {freq : ℚ} {prev : List (String × ℚ)} {pre ms : List Motor}
    {v : List (String × ℚ)} {e : String}
    (hpre : evalMotors freq prev pre = .ok v) (hms : evalMotors freq prev ms = .error e) :
    evalMotors freq prev (pre ++ ms) = .error e := by
  induction pre generalizing v with
  | nil => simpa using hms
  | cons p0 pre' ih =>
    rw [evalMotors_cons] at hpre
    cases hs : speedOf freq prev p0 with
    | error e' => rw [hs, exceptBind_error] at hpre; exact absurd hpre (by simp)
    | ok s =>
      rw [hs, exceptBind_ok] at hpre
      cases hr : evalMotors freq prev pre' with
      | error e' => rw [hr, exceptBind_error] at hpre; exact absurd hpre (by simp)
      | ok v' =>
        rw [List.cons_append, evalMotors_cons, hs, exceptBind_ok, ih hr, exceptBind_error]

theorem update_of_evalMotors_ok {freq : ℚ} {prev : List (String × ℚ)} {motors : List Motor}
    {v : List (String × ℚ)} (h : evalMotors freq prev motors = .ok v) :
    update freq prev motors = .ok (applyVerdict motors v) := by
  rw [update, h, exceptBind_ok]

theorem update_of_evalMotors_error {freq : ℚ} {prev : List (String × ℚ)} {motors : List Motor}
    {e : String} (h : evalMotors freq prev motors = .error e) :
    update freq prev motors = .error e := by
  rw [update, h, exceptBind_error]

theorem tickMotors_of_error {freq : ℚ} {prev : List (String × ℚ)} {motors : List Motor}
    {e : String} (h : update freq prev motors = .error e) :
    tickMotors freq prev motors = motors := by
  rw [tickMotors, h]

end LimitSpeed

/-! ### Claim C1 -/

/-- Claim C1: for every tick of each safety loop (overload, speed,
overheat), if that tick's verdict set is non-empty then the release-all
effect is invoked exactly once that tick, setting the compliant flag of
every motor in the robot to true — not only the offending motors; a
single violation anywhere trips a whole-robot release. -/
theorem c1_release_all_once :
    (∀ motors : List Motor, (LimitOverLoad.update motors).verdict ≠ [] →
      (LimitOverLoad.update motors).releases = 1
      ∧ (LimitOverLoad.update motors).motors = releaseAll motors
      ∧ ∀ m' ∈ (LimitOverLoad.update motors).motors, m'.compliant = true)
    ∧ (∀ motors : List Motor, (LimitTemperature.update motors).verdict ≠ [] →
      (LimitTemperature.update motors).releases = 1
      ∧ (LimitTemperature.update motors).motors = releaseAll motors
      ∧ ∀ m' ∈ (LimitTemperature.update motors).motors, m'.compliant = true)
    ∧ (∀ (freq : ℚ) (prev : List (String × ℚ)) (motors : List Motor) (r : TickResult),
        LimitSpeed.update freq prev motors = .ok r → r.verdict ≠ [] →
        r.releases = 1 ∧ r.motors = releaseAll motors ∧ ∀ m' ∈ r.motors, m'.compliant = true) := by
  refine ⟨?_, ?_, ?_⟩
  · intro motors h
    rw [LimitOverLoad.update, applyVerdict_verdict] at h
    rw [LimitOverLoad.update, applyVerdict_nonempty motors h]
    exact ⟨rfl, rfl, releaseAll_compliant motors⟩
  · intro motors h
    rw [LimitTemperature.update, applyVerdict_verdict] at h
    rw [LimitTemperature.update, applyVerdict_nonempty motors h]
    exact ⟨rfl, rfl, releaseAll_compliant motors⟩
  · intro freq prev motors r hr hv
    cases he : LimitSpeed.evalMotors freq prev motors with
    | error e =>
      rw [LimitSpeed.update_of_evalMotors_error he] at hr
      exact absurd hr (by simp)
    | ok v =>
      rw [LimitSpeed.update_of_evalMotors_ok he] at hr
      injection hr with hr
      subst hr
      rw [applyVerdict_verdict] at hv
      rw [applyVerdict_nonempty motors hv]
      exact ⟨rfl, rfl, releaseAll_compliant motors⟩

/-- Witness for C1: one offending motor per loop — load 75 > 60,
temperature 61 > 60, and a position jump tripping the speed limit. -/
theorem c1_release_all_once_witness :
    ((LimitOverLoad.update [⟨"m1", 75, 0, 0, "MX-28", false⟩]).verdict ≠ []
      ∧ (LimitOverLoad.update [⟨"m1", 75, 0, 0, "MX-28", false⟩]).releases = 1
      ∧ (LimitOverLoad.update [⟨"m1", 75, 0, 0, "MX-28", false⟩]).motors
          = releaseAll [⟨"m1", 75, 0, 0, "MX-28", false⟩]
      ∧ ∀ m' ∈ (LimitOverLoad.update [⟨"m1", 75, 0, 0, "MX-28", false⟩]).motors,
          m'.compliant = true)
    ∧ ((LimitTemperature.update [⟨"t1", 0, 0, 61, "MX-28", false⟩]).verdict ≠ []
      ∧ (LimitTemperature.update [⟨"t1", 0, 0, 61, "MX-28", false⟩]).releases = 1
      ∧ (LimitTemperature.update [⟨"t1", 0, 0, 61, "MX-28", false⟩]).motors
          = releaseAll [⟨"t1", 0, 0, 61, "MX-28", false⟩]
      ∧ ∀ m' ∈ (LimitTemperature.update [⟨"t1", 0, 0, 61, "MX-28", false⟩]).motors,
          m'.compliant = true)
    ∧ (LimitSpeed.update 50 [("m1", 0)] [⟨"m1", 0, 1000000, 0, "MX-28", false⟩]
        = .ok ⟨[("m1", 1760)], [⟨"m1", 0, 1000000, 0, "MX-28", true⟩], 1, 1⟩
      ∧ (⟨[("m1", 1760)], [⟨"m1", 0, 1000000, 0, "MX-28", true⟩], 1, 1⟩ : TickResult).verdict ≠ []
      ∧ (⟨[("m1", 1760)], [⟨"m1", 0, 1000000, 0, "MX-28", true⟩], 1, 1⟩ : TickResult).releases = 1
      ∧ (⟨[("m1", 1760)], [⟨"m1", 0, 1000000, 0, "MX-28", true⟩], 1, 1⟩ : TickResult).motors
          = releaseAll [⟨"m1", 0, 1000000, 0, "MX-28", false⟩]
      ∧ ∀ m' ∈ (⟨[("m1", 1760)], [⟨"m1", 0, 1000000, 0, "MX-28", true⟩], 1, 1⟩ : TickResult).motors,
          m'.compliant = true) := by
  have h1 : (LimitOverLoad.update [⟨"m1", 75, 0, 0, "MX-28", false⟩]).verdict ≠ [] := by decide
  have h2 : (LimitTemperature.update [⟨"t1", 0, 0, 61, "MX-28", false⟩]).verdict ≠ [] := by decide
  have hup : LimitSpeed.update 50 [("m1", 0)] [⟨"m1", 0, 1000000, 0, "MX-28", false⟩]
      = .ok ⟨[("m1", 1760)], [⟨"m1", 0, 1000000, 0, "MX-28", true⟩], 1, 1⟩ := by
    with_unfolding_all rfl
  have h3 : (⟨[("m1", 1760)], [⟨"m1", 0, 1000000, 0, "MX-28", true⟩], 1, 1⟩ : TickResult).verdict
      ≠ [] := by decide
  exact ⟨⟨h1, c1_release_all_once.1 _ h1⟩, ⟨h2, c1_release_all_once.2.1 _ h2⟩,
    ⟨hup, h3, c1_release_all_once.2.2 50 [("m1", 0)] _ _ hup h3⟩⟩

/-! ### Claim C10 -/

/-- Claim C10: for every tick of each safety loop in which the verdict set
is empty, the update leaves every motor unchanged (in particular every
compliant flag) and performs no actuation and no report; and in every tick
of either branch, the only per-motor field an update can change is the
compliant flag (the `chassis` projection of every motor is preserved). -/
theorem c10_empty_verdict_frame :
    (∀ motors : List Motor, (LimitOverLoad.update motors).verdict = [] →
        LimitOverLoad.update motors = ⟨[], motors, 0, 0⟩)
    ∧ (∀ motors : List Motor, (LimitTemperature.update motors).verdict = [] →
        LimitTemperature.update motors = ⟨[], motors, 0, 0⟩)
    ∧ (∀ (freq : ℚ) (prev : List (String × ℚ)) (motors : List Motor) (r : TickResult),
        LimitSpeed.update freq prev motors = .ok r → r.verdict = [] → r = ⟨[], motors, 0, 0⟩)
    ∧ (∀ motors : List Motor,
        (LimitOverLoad.update motors).motors.map chassis = motors.map chassis)
    ∧ (∀ motors : List Motor,
        (LimitTemperature.update motors).motors.map chassis = motors.map chassis)
    ∧ (∀ (freq : ℚ) (prev : List (String × ℚ)) (motors : List Motor) (r : TickResult),
        LimitSpeed.update freq prev motors = .ok r →
        r.motors.map chassis = motors.map chassis) := by
  refine ⟨?_, ?_, ?_, ?_, ?_, ?_⟩
  · intro motors h
    rw [LimitOverLoad.update, applyVerdict_verdict] at h
    rw [LimitOverLoad.update, h, applyVerdict_nil]
  · intro motors h
    rw [LimitTemperature.update, applyVerdict_verdict] at h
    rw [LimitTemperature.update, h, applyVerdict_nil]
  · intro freq prev motors r hr hv
    cases he : LimitSpeed.evalMotors freq prev motors with
    | error e =>
      rw [LimitSpeed.update_of_evalMotors_error he] at hr
      exact absurd hr (by simp)
    | ok v =>
      rw [LimitSpeed.update_of_evalMotors_ok he] at hr
      injection hr with hr
      subst hr
      rw [applyVerdict_verdict] at hv
      rw [hv, applyVerdict_nil]
  · intro motors
    rw [LimitOverLoad.update]
    exact applyVerdict_chassis motors _
  · intro motors
    rw [LimitTemperature.update]
    exact applyVerdict_chassis motors _
  · intro freq prev motors r hr
    cases he : LimitSpeed.evalMotors freq prev motors with
    | error e =>
      rw [LimitSpeed.update_of_evalMotors_error he] at hr
      exact absurd hr (by simp)
    | ok v =>
      rw [LimitSpeed.update_of_evalMotors_ok he] at hr
      injection hr with hr
      subst hr
      exact applyVerdict_chassis motors v

/-- Witness for C10: a benign snapshot (load 10, temperature 30, no
movement since the previous tick) leaves everything untouched in all
three loops. -/
theorem c10_empty_verdict_frame_witness :
    ((LimitOverLoad.update [⟨"m1", 10, 5, 30, "MX-28", false⟩]).verdict = []
      ∧ LimitOverLoad.update [⟨"m1", 10, 5, 30, "MX-28", false⟩]
          = ⟨[], [⟨"m1", 10, 5, 30, "MX-28", false⟩], 0, 0⟩)
    ∧ ((LimitTemperature.update [⟨"m1", 10, 5, 30, "MX-28", false⟩]).verdict = []
      ∧ LimitTemperature.update [⟨"m1", 10, 5, 30, "MX-28", false⟩]
          = ⟨[], [⟨"m1", 10, 5, 30, "MX-28", false⟩], 0, 0⟩)
    ∧ (LimitSpeed.update 50 [("m1", 5)] [⟨"m1", 10, 5, 30, "MX-28", false⟩]
        = .ok ⟨[], [⟨"m1", 10, 5, 30, "MX-28", false⟩], 0, 0⟩
      ∧ (⟨[], [⟨"m1", 10, 5, 30, "MX-28", false⟩], 0, 0⟩ : TickResult)
          = ⟨[], [⟨"m1", 10, 5, 30, "MX-28", false⟩], 0, 0⟩)
    ∧ (LimitOverLoad.update [⟨"m1", 10, 5, 30, "MX-28", false⟩]).motors.map chassis
        = [⟨"m1", 10, 5, 30, "MX-28", false⟩].map chassis := by
  have h1 : (LimitOverLoad.update [⟨"m1", 10, 5, 30, "MX-28", false⟩]).verdict = [] := by decide
  have h2 : (LimitTemperature.update [⟨"m1", 10, 5, 30, "MX-28", false⟩]).verdict = [] := by
    decide
  have hup : LimitSpeed.update 50 [("m1", 5)] [⟨"m1", 10, 5, 30, "MX-28", false⟩]
      = .ok ⟨[], [⟨"m1", 10, 5, 30, "MX-28", false⟩], 0, 0⟩ := by
    with_unfolding_all rfl
  have h3 : (⟨[], [⟨"m1", 10, 5, 30, "MX-28", false⟩], 0, 0⟩ : TickResult).verdict = [] := by
    decide
  exact ⟨⟨h1, c10_empty_verdict_frame.1 _ h1⟩, ⟨h2, c10_empty_verdict_frame.2.1 _ h2⟩,
    ⟨hup, c10_empty_verdict_frame.2.2.1 50 [("m1", 5)] _ _ hup h3⟩,
    c10_empty_verdict_frame.2.2.2.1 _⟩

/-! ### Claim C9 -/

/-- Claim C9: if any motor in the snapshot has an unknown model, the speed
loop's update raises before the release step runs, so even when a motor
evaluated earlier in the same tick exceeded the speed limit, no motor is
released that tick: the whole snapshot — in particular every compliant
flag — is left unchanged. -/
theorem c9_unknown_model_discards_tick (freq : ℚ) (prev : List (String × ℚ))
    (motors : List Motor)
    (h : ∃ m ∈ motors, m.model ≠ "MX-28" ∧ m.model ≠ "MX-64" ∧ m.model ≠ "AX-12") :
    (∃ e, LimitSpeed.update freq prev motors = .error e)
    ∧ LimitSpeed.tickMotors freq prev motors = motors := by
  have h' : ∃ m ∈ motors, ∃ e, LimitSpeed.resolutionOf m.model = .error e := by
    obtain ⟨m, hm, h1, h2, h3⟩ := h
    refine ⟨m, hm, "unknown motor model.", ?_⟩
    rw [LimitSpeed.resolutionOf]
    simp [h1, h2, h3]
  obtain ⟨e, he⟩ := LimitSpeed.evalMotors_error_of_unknown h'
  have hup := LimitSpeed.update_of_evalMotors_error he
  exact ⟨⟨e, hup⟩, LimitSpeed.tickMotors_of_error hup⟩

/-- Witness for C9: the snapshot holds `m1`, an MX-28 that moved enough to
exceed the speed limit (its computed speed 1760 deg/s trips), followed by
`m2` with unknown model `"XYZ-99"`; the tick raises and no motor is
released. -/
theorem c9_unknown_model_discards_tick_witness :
    (∃ m ∈ [(⟨"m1", 0, 1000000, 0, "MX-28", false⟩ : Motor), ⟨"m2", 0, 0, 0, "XYZ-99", false⟩],
      m.model ≠ "MX-28" ∧ m.model ≠ "MX-64" ∧ m.model ≠ "AX-12")
    ∧ (∃ e, LimitSpeed.update 50 [("m1", 0), ("m2", 0)]
        [⟨"m1", 0, 1000000, 0, "MX-28", false⟩, ⟨"m2", 0, 0, 0, "XYZ-99", false⟩] = .error e)
    ∧ LimitSpeed.tickMotors 50 [("m1", 0), ("m2", 0)]
        [⟨"m1", 0, 1000000, 0, "MX-28", false⟩, ⟨"m2", 0, 0, 0, "XYZ-99", false⟩]
      = [⟨"m1", 0, 1000000, 0, "MX-28", false⟩, ⟨"m2", 0, 0, 0, "XYZ-99", false⟩]
    ∧ LimitSpeed.speedOf 50 [("m1", 0), ("m2", 0)] ⟨"m1", 0, 1000000, 0, "MX-28", false⟩
        = .ok 1760
    ∧ LimitSpeed.overspeedTrips 1760 := by
  have hex : ∃ m ∈ [(⟨"m1", 0, 1000000, 0, "MX-28", false⟩ : Motor),
      ⟨"m2", 0, 0, 0, "XYZ-99", false⟩],
      m.model ≠ "MX-28" ∧ m.model ≠ "MX-64" ∧ m.model ≠ "AX-12" := by decide
  have hc := c9_unknown_model_discards_tick 50 [("m1", 0), ("m2", 0)]
    [⟨"m1", 0, 1000000, 0, "MX-28", false⟩, ⟨"m2", 0, 0, 0, "XYZ-99", false⟩] hex
  refine ⟨hex, hc.1, hc.2, ?_, ?_⟩
  · with_unfolding_all rfl
  · decide

/-! ### Claim C8 -/

/-- Counterexample to C8 as stated: with `m3` (model `"XYZ-99"`) in the
snapshot ahead of `m4` (an MX-28 whose motion exceeds the speed limit),
the whole cycle aborts with the ValueError and `m4` is neither recorded in
any verdict nor released — whereas the same tick without `m3` trips on
`m4` and releases it.  So the other motors are NOT still evaluated
normally in the cycle that raises. -/
theorem c8_counterexample :
    LimitSpeed.update 50 [("m3", 0), ("m4", 0)]
        [⟨"m3", 0, 0, 0, "XYZ-99", false⟩, ⟨"m4", 0, 1000000, 0, "MX-28", false⟩]
      = .error "unknown motor model."
    ∧ LimitSpeed.tickMotors 50 [("m3", 0), ("m4", 0)]
        [⟨"m3", 0, 0, 0, "XYZ-99", false⟩, ⟨"m4", 0, 1000000, 0, "MX-28", false⟩]
      = [⟨"m3", 0, 0, 0, "XYZ-99", false⟩, ⟨"m4", 0, 1000000, 0, "MX-28", false⟩]
    ∧ LimitSpeed.update 50 [("m3", 0), ("m4", 0)] [⟨"m4", 0, 1000000, 0, "MX-28", false⟩]
      = .ok ⟨[("m4", 1760)], [⟨"m4", 0, 1000000, 0, "MX-28", true⟩], 1, 1⟩ := by
  refine ⟨?_, ?_, ?_⟩
  · rfl
  · rfl
  · with_unfolding_all rfl

/-- Claim C8 (amended): when a motor with an unknown model is reached, the
speed evaluation raises the ValueError for the whole cycle: no trip is
recorded for any motor this cycle — the motors after the offending one are
not evaluated at all, the verdict entries already collected from the
motors before it are discarded, and every motor's state is unchanged. -/
theorem c8_unknown_model_aborts_cycle (freq : ℚ) (prev : List (String × ℚ))
    (pre post : List Motor) (m : Motor) (v : List (String × ℚ)) (e : String)
    (hpre : LimitSpeed.evalMotors freq prev pre = .ok v)
    (hm : LimitSpeed.resolutionOf m.model = .error e) :
    LimitSpeed.update freq prev (pre ++ m :: post) = .error e
    ∧ LimitSpeed.tickMotors freq prev (pre ++ m :: post) = pre ++ m :: post := by
  have hcons : LimitSpeed.evalMotors freq prev (m :: post) = .error e :=
    LimitSpeed.evalMotors_error_cons (LimitSpeed.speedOf_error_of_resolution hm)
  have happ := LimitSpeed.evalMotors_append_error hpre hcons
  have hup := LimitSpeed.update_of_evalMotors_error happ
  exact ⟨hup, LimitSpeed.tickMotors_of_error hup⟩

/-- Witness for C8 (amended): prefix `[m1]` evaluates to the non-empty
verdict `[("m1", 1760)]`, which the ValueError raised at `m3` (model
`"XYZ-99"`) then discards; the trailing motor `m4` is never reached. -/
theorem c8_unknown_model_aborts_cycle_witness :
    LimitSpeed.evalMotors 50 [("m1", 0)] [⟨"m1", 0, 1000000, 0, "MX-28", false⟩]
      = .ok [("m1", 1760)]
    ∧ LimitSpeed.resolutionOf "XYZ-99" = .error "unknown motor model."
    ∧ LimitSpeed.update 50 [("m1", 0)]
        ([⟨"m1", 0, 1000000, 0, "MX-28", false⟩]
          ++ (⟨"m3", 0, 0, 0, "XYZ-99", false⟩ : Motor)
            :: [⟨"m4", 0, 7, 0, "MX-28", false⟩])
      = .error "unknown motor model."
    ∧ LimitSpeed.tickMotors 50 [("m1", 0)]
        ([⟨"m1", 0, 1000000, 0, "MX-28", false⟩]
          ++ (⟨"m3", 0, 0, 0, "XYZ-99", false⟩ : Motor)
            :: [⟨"m4", 0, 7, 0, "MX-28", false⟩])
      = [⟨"m1", 0, 1000000, 0, "MX-28", false⟩]
          ++ (⟨"m3", 0, 0, 0, "XYZ-99", false⟩ : Motor)
            :: [⟨"m4", 0, 7, 0, "MX-28", false⟩] := by
  have h1 : LimitSpeed.evalMotors 50 [("m1", 0)] [⟨"m1", 0, 1000000, 0, "MX-28", false⟩]
      = .ok [("m1", 1760)] := by with_unfolding_all rfl
  have h2 : LimitSpeed.resolutionOf
      (Motor.model ⟨"m3", 0, 0, 0, "XYZ-99", false⟩) = .error "unknown motor model." := by rfl
  have hc := c8_unknown_model_aborts_cycle 50 [("m1", 0)]
    [⟨"m1", 0, 1000000, 0, "MX-28", false⟩] [⟨"m4", 0, 7, 0, "MX-28", false⟩]
    ⟨"m3", 0, 0, 0, "XYZ-99", false⟩ [("m1", 1760)] "unknown motor model." h1 h2
  exact ⟨h1, h2, hc.1, hc.2⟩

/-! ### Claim C7 -/

/-- Counterexample to C7 as stated: the error raised for motor `"m3"` with
model `"XYZ-99"` is the fixed message `"unknown motor model."`, which
contains neither the motor's name nor its model string — it does not
identify the offending motor. -/
theorem c7_counterexample :
    LimitSpeed.speedOf 50 [("m3", 0)] ⟨"m3", 0, 0, 0, "XYZ-99", false⟩
      = .error "unknown motor model."
    ∧ ¬ ("m3".toList <:+: "unknown motor model.".toList)
    ∧ ¬ ("XYZ-99".toList <:+: "unknown motor model.".toList) := by
  refine ⟨?_, ?_, ?_⟩
  · rfl
  · decide
  · decide

/-- Claim C7 (amended): when the overspeed rule encounters a motor whose
model is not one of the known models, the evaluation fails — but with the
fixed, motor-independent message `"unknown motor model."`, which does not
name the offending motor or its model string. -/
theorem c7_unknown_model_message (freq : ℚ) (prev : List (String × ℚ)) (m : Motor)
    (h1 : m.model ≠ "MX-28") (h2 : m.model ≠ "MX-64") (h3 : m.model ≠ "AX-12") :
    LimitSpeed.resolutionOf m.model = .error "unknown motor model."
    ∧ LimitSpeed.speedOf freq prev m = .error "unknown motor model." := by
  have hres : LimitSpeed.resolutionOf m.model = .error "unknown motor model." := by
    rw [LimitSpeed.resolutionOf]
    simp [h1, h2, h3]
  exact ⟨hres, LimitSpeed.speedOf_error_of_resolution hres⟩

/-- Witness for C7 (amended) at the spec's scenario motor `"m3"`, model
`"XYZ-99"`. -/
theorem c7_unknown_model_message_witness :
    LimitSpeed.resolutionOf (Motor.model ⟨"m3", 0, 0, 0, "XYZ-99", false⟩)
      = .error "unknown motor model."
    ∧ LimitSpeed.speedOf 50 [("m3", 0)] ⟨"m3", 0, 0, 0, "XYZ-99", false⟩
      = .error "unknown motor model." :=
  c7_unknown_model_message 50 [("m3", 0)] ⟨"m3", 0, 0, 0, "XYZ-99", false⟩
    (by decide) (by decide) (by decide)

/-! ### Claim C4 -/

/-- Counterexample to C4 as stated: for `m1` (class A, resolution 0.088)
with position delta `d = 1` at frequency `f = 50`, the code computes the
degree speed `(1 - 0) * 0.088 / 50 = 11/6250`, whose radian value differs
from `radians(d * resolution * f) = radians(1 * 0.088 * 50)`: the source
divides the scaled displacement by the frequency, it does not multiply. -/
theorem c4_counterexample :
    LimitSpeed.speedOf 50 [("m1", 0)] ⟨"m1", 0, 1, 0, "MX-28", false⟩ = .ok (11/6250)
    ∧ ((11/6250 : ℚ) : ℝ) * Real.pi / 180 ≠ (((1:ℚ) * (88/1000) * 50 : ℚ) : ℝ) * Real.pi / 180 := by
  constructor
  · with_unfolding_all rfl
  · intro h
    have hne : (Real.pi / 180 : ℝ) ≠ 0 := by positivity
    rw [mul_div_assoc, mul_div_assoc] at h
    have hq : ((11/6250 : ℚ) : ℝ) = ((1 * (88/1000) * 50 : ℚ) : ℝ) := mul_right_cancel₀ hne h
    have h2 : (11/6250 : ℚ) = (1 * (88/1000) * 50 : ℚ) := by exact_mod_cast hq
    norm_num at h2

/-- Claim C4 (amended): for every motor with a known model (class A, i.e.
MX-28/MX-64, resolution 0.088 degrees; class B, i.e. AX-12, resolution
0.29 degrees), the speed computed by the overspeed rule for a position
delta `d` at loop frequency `f ≠ 0` equals `radians(d * resolution / f)` —
the displacement is multiplied by the resolution and DIVIDED by the
frequency, then converted to radians per second — and the motor's
`(name, speed)` entry is in the speed verdict iff
`abs(speed) > SPEED_LIMIT`, i.e. iff `|radians(speed_deg)| > 4π`. -/
theorem c4_speed_formula (freq : ℚ) (prev : List (String × ℚ)) (motors : List Motor)
    (v : List (String × ℚ)) (m : Motor) (res p : ℚ)
    (_hfreq : freq ≠ 0)
    (hok : LimitSpeed.evalMotors freq prev motors = .ok v)
    (hm : m ∈ motors)
    (hres : LimitSpeed.resolutionOf m.model = .ok res)
    (hp : List.lookup m.name prev = some p) :
    LimitSpeed.speedOf freq prev m = .ok ((m.present_position - p) * res / freq)
    ∧ ((m.model = "MX-28" ∨ m.model = "MX-64") → res = 88/1000)
    ∧ (m.model = "AX-12" → res = 29/100)
    ∧ ((m.name, (m.present_position - p) * res / freq) ∈ v ↔
        |(((m.present_position - p) * res / freq : ℚ) : ℝ) * Real.pi / 180| > 4 * Real.pi) := by
  have hs : LimitSpeed.speedOf freq prev m = .ok ((m.present_position - p) * res / freq) :=
    LimitSpeed.speedOf_eq_ok hres hp
  refine ⟨hs, ?_, ?_, ?_⟩
  · intro hmod
    rw [LimitSpeed.resolutionOf, if_pos hmod] at hres
    injection hres with hres
    exact hres.symm
  · intro hmod
    rw [hmod] at hres
    rw [show LimitSpeed.resolutionOf "AX-12" = .ok (29/100) from rfl] at hres
    injection hres with hres
    exact hres.symm
  · rw [← overspeedTrips_iff_real]
    rw [LimitSpeed.evalMotors_ok_mem hok ((m.name, (m.present_position - p) * res / freq))]
    constructor
    · rintro ⟨m', _, _, _, h3⟩
      exact h3
    · intro ht
      exact ⟨m, hm, rfl, hs, ht⟩

/-- Witness for C4 (amended): class A motor `m1` jumping from position 0
to 1000000 at 50 Hz; its degree speed is `(1000000 - 0) * 0.088 / 50 =
1760`, which trips, so `("m1", 1760)` is the verdict entry. -/
theorem c4_speed_formula_witness :
    ((50:ℚ) ≠ 0)
    ∧ LimitSpeed.evalMotors 50 [("m1", 0)] [⟨"m1", 0, 1000000, 0, "MX-28", false⟩]
        = .ok [("m1", 1760)]
    ∧ List.lookup "m1" [("m1", (0:ℚ))] = some 0
    ∧ (LimitSpeed.speedOf 50 [("m1", 0)] ⟨"m1", 0, 1000000, 0, "MX-28", false⟩
        = .ok ((1000000 - 0) * (88/1000) / 50)
      ∧ ((("MX-28":String) = "MX-28" ∨ ("MX-28":String) = "MX-64") → (88/1000 : ℚ) = 88/1000)
      ∧ (("MX-28":String) = "AX-12" → (88/1000 : ℚ) = 29/100)
      ∧ (("m1", ((1000000 - 0) * (88/1000) / 50 : ℚ)) ∈ [("m1", (1760:ℚ))] ↔
          |(((1000000 - 0) * (88/1000) / 50 : ℚ) : ℝ) * Real.pi / 180| > 4 * Real.pi)) := by
  have hfreq : (50:ℚ) ≠ 0 := by norm_num
  have hok : LimitSpeed.evalMotors 50 [("m1", 0)] [⟨"m1", 0, 1000000, 0, "MX-28", false⟩]
      = .ok [("m1", 1760)] := by with_unfolding_all rfl
  have hp : List.lookup "m1" [("m1", (0:ℚ))] = some 0 := rfl
  have hres : LimitSpeed.resolutionOf (Motor.model ⟨"m1", 0, 1000000, 0, "MX-28", false⟩)
      = .ok (88/1000) := rfl
  have hm : (⟨"m1", 0, 1000000, 0, "MX-28", false⟩ : Motor)
      ∈ [(⟨"m1", 0, 1000000, 0, "MX-28", false⟩ : Motor)] := by decide
  exact ⟨hfreq, hok, hp,
    c4_speed_formula 50 [("m1", 0)] [⟨"m1", 0, 1000000, 0, "MX-28", false⟩] [("m1", 1760)]
      ⟨"m1", 0, 1000000, 0, "MX-28", false⟩ (88/1000) 0 hfreq hok hm hres hp⟩

/-! ### Claim C5 -/

/-- Claim C5 fails on the code (code bug): `LimitSpeed.update` never
writes `self.prev_position` — the only write is in `setup` — so after a
tick the tracker still holds the setup position, not the tick's position.
Demonstration at the failing input: `m1` is at position 0 at setup and at
position 1000000 at tick 1; after tick 1 the tracker still maps `"m1"` to
0 (the claim says 1000000), and tick 2, whose snapshot shows `m1` not
having moved at all since tick 1, still computes the stale "speed" 1760
deg/s against the setup position and trips a release — contradicting the
source's own description of the value as the instantaneous speed. -/
theorem c5_prev_position_never_updated :
    LimitSpeed.setup [⟨"m1", 0, 0, 0, "MX-28", false⟩] = [("m1", 0)]
    ∧ (LimitSpeed.step ⟨50, LimitSpeed.setup [⟨"m1", 0, 0, 0, "MX-28", false⟩]⟩
        [⟨"m1", 0, 1000000, 0, "MX-28", false⟩]).2.prev_position = [("m1", 0)]
    ∧ List.lookup "m1" (LimitSpeed.step ⟨50, LimitSpeed.setup [⟨"m1", 0, 0, 0, "MX-28", false⟩]⟩
        [⟨"m1", 0, 1000000, 0, "MX-28", false⟩]).2.prev_position = some 0
    ∧ ((0:ℚ) ≠ 1000000)
    ∧ LimitSpeed.update
        (LimitSpeed.step ⟨50, LimitSpeed.setup [⟨"m1", 0, 0, 0, "MX-28", false⟩]⟩
          [⟨"m1", 0, 1000000, 0, "MX-28", false⟩]).2.freq
        (LimitSpeed.step ⟨50, LimitSpeed.setup [⟨"m1", 0, 0, 0, "MX-28", false⟩]⟩
          [⟨"m1", 0, 1000000, 0, "MX-28", false⟩]).2.prev_position
        [⟨"m1", 0, 1000000, 0, "MX-28", false⟩]
      = .ok ⟨[("m1", 1760)], [⟨"m1", 0, 1000000, 0, "MX-28", true⟩], 1, 1⟩ := by
  refine ⟨rfl, rfl, rfl, by norm_num, ?_⟩
  with_unfolding_all rfl

/-! ### Claim C6 -/

/-- A scan in which every motor's computed speed is below the trip
threshold returns the empty verdict. -/
theorem evalMotors_ok_nil_of_no_trip {freq : ℚ} {prev : List (String × ℚ)} {motors : List Motor}
    (h : ∀ m ∈ motors, ∃ s, LimitSpeed.speedOf freq prev m = .ok s
        ∧ ¬ LimitSpeed.overspeedTrips s) :
    LimitSpeed.evalMotors freq prev motors = .ok [] := by
  induction motors with
  | nil => rfl
  | cons m0 ms ih =>
    obtain ⟨s, hs, ht⟩ := h m0 (List.mem_cons_self m0 ms)
    rw [LimitSpeed.evalMotors_cons, hs, exceptBind_ok,
      ih (fun m hm => h m (List.mem_cons_of_mem m0 hm)), exceptBind_ok, if_neg ht]

/-- Counterexample to C6 as stated: `m1` is present at setup (at position
0), and at the first tick its position reads 1000000: the first tick's
computed speed is 1760 deg/s, not zero, and the first tick does put `m1`
in the speed verdict and releases it — seeding the tracker at setup only
makes the first tick's speed zero if the motor has not moved between the
setup read and the first tick's read. -/
theorem c6_counterexample :
    LimitSpeed.setup [⟨"m1", 0, 0, 0, "MX-28", false⟩] = [("m1", 0)]
    ∧ LimitSpeed.speedOf 50 (LimitSpeed.setup [⟨"m1", 0, 0, 0, "MX-28", false⟩])
        ⟨"m1", 0, 1000000, 0, "MX-28", false⟩ = .ok 1760
    ∧ ((1760:ℚ) ≠ 0)
    ∧ LimitSpeed.update 50 (LimitSpeed.setup [⟨"m1", 0, 0, 0, "MX-28", false⟩])
        [⟨"m1", 0, 1000000, 0, "MX-28", false⟩]
      = .ok ⟨[("m1", 1760)], [⟨"m1", 0, 1000000, 0, "MX-28", true⟩], 1, 1⟩ := by
  refine ⟨rfl, ?_, by norm_num, ?_⟩
  · with_unfolding_all rfl
  · with_unfolding_all rfl

/-- Claim C6 (amended): for every motor of the first tick's snapshot whose
position still equals the position recorded for its name at setup (in
particular whenever the first tick reads the same positions that setup
read), and whose model is known, the first tick's computed speed is zero;
if all motors of the snapshot are such, the first tick's verdict is empty
and nothing is released. -/
theorem c6_first_tick_zero (freq : ℚ) (motors0 motors1 : List Motor)
    (_hfreq : freq ≠ 0)
    (hpos : ∀ m ∈ motors1,
      List.lookup m.name (LimitSpeed.setup motors0) = some m.present_position)
    (hmodel : ∀ m ∈ motors1, ∃ r, LimitSpeed.resolutionOf m.model = .ok r) :
    (∀ m ∈ motors1, LimitSpeed.speedOf freq (LimitSpeed.setup motors0) m = .ok 0)
    ∧ LimitSpeed.update freq (LimitSpeed.setup motors0) motors1 = .ok ⟨[], motors1, 0, 0⟩ := by
  have hspeed : ∀ m ∈ motors1, LimitSpeed.speedOf freq (LimitSpeed.setup motors0) m = .ok 0 := by
    intro m hm
    obtain ⟨r, hr⟩ := hmodel m hm
    rw [LimitSpeed.speedOf_eq_ok hr (hpos m hm)]
    norm_num
  have heval : LimitSpeed.evalMotors freq (LimitSpeed.setup motors0) motors1 = .ok [] :=
    evalMotors_ok_nil_of_no_trip (fun m hm => ⟨0, hspeed m hm, by decide⟩)
  have hup := LimitSpeed.update_of_evalMotors_ok heval
  rw [applyVerdict_nil] at hup
  exact ⟨hspeed, hup⟩

/-- Witness for C6 (amended): the spec's scenario — motor `m2` at position
10.0° at setup and still 10.0° at tick 1 → speed zero, empty verdict, no
release. -/
theorem c6_first_tick_zero_witness :
    ((50:ℚ) ≠ 0)
    ∧ (∀ m ∈ [(⟨"m2", 0, 10, 0, "MX-28", false⟩ : Motor)],
        List.lookup m.name (LimitSpeed.setup [⟨"m2", 0, 10, 0, "MX-28", false⟩])
          = some m.present_position)
    ∧ (∀ m ∈ [(⟨"m2", 0, 10, 0, "MX-28", false⟩ : Motor)],
        ∃ r, LimitSpeed.resolutionOf m.model = .ok r)
    ∧ (∀ m ∈ [(⟨"m2", 0, 10, 0, "MX-28", false⟩ : Motor)],
        LimitSpeed.speedOf 50 (LimitSpeed.setup [⟨"m2", 0, 10, 0, "MX-28", false⟩]) m = .ok 0)
    ∧ LimitSpeed.update 50 (LimitSpeed.setup [⟨"m2", 0, 10, 0, "MX-28", false⟩])
        [⟨"m2", 0, 10, 0, "MX-28", false⟩]
      = .ok ⟨[], [⟨"m2", 0, 10, 0, "MX-28", false⟩], 0, 0⟩ := by
  have hfreq : (50:ℚ) ≠ 0 := by norm_num
  have hpos : ∀ m ∈ [(⟨"m2", 0, 10, 0, "MX-28", false⟩ : Motor)],
      List.lookup m.name (LimitSpeed.setup [⟨"m2", 0, 10, 0, "MX-28", false⟩])
        = some m.present_position := by decide
  have hmodel : ∀ m ∈ [(⟨"m2", 0, 10, 0, "MX-28", false⟩ : Motor)],
      ∃ r, LimitSpeed.resolutionOf m.model = .ok r := by
    intro m hm
    rw [List.mem_singleton] at hm
    subst hm
    exact ⟨88/1000, rfl⟩
  have hc := c6_first_tick_zero 50 [⟨"m2", 0, 10, 0, "MX-28", false⟩]
    [⟨"m2", 0, 10, 0, "MX-28", false⟩] hfreq hpos hmodel
  exact ⟨hfreq, hpos, hmodel, hc.1, hc.2⟩
